import Mathlib

/-!
Formal model of the Task Access Service implemented in `src/routes/tasks.js`
of TaskForgeAPI: an Express router with seven handlers over Mongoose models
`Task`, `Team`, `User`.

Modelling conventions:
* Document ids (Mongo ObjectIds) are strings; the store assigns fresh ids
  from a counter (`nextId`), and timestamps (`createdAt`) from a logical
  clock (`now`).
* A request body is a record of optional fields: `none` models a key absent
  from the parsed JSON body (JS `undefined` after destructuring).
* The Mongoose models live outside the shown source. Modelled from the spec:
  `completed` defaults to `false` at creation and `createdAt` is set at
  creation time; a team record carries a `members` list of user ids; a user
  record carries a `username`.
* The `catch` branches (storage failures, 500 responses) are unreachable in
  this pure model and are not represented; no claim concerns them.
-/

namespace TaskForge

/-- A stored task document, after `src/models/task` (fields as used by the
routes; optional fields are `Option` because Mongo documents may lack them). -/
structure Task where
  id : String
  title : Option String
  description : Option String
  dueDate : Option String
  priority : Option Int
  completed : Option Bool
  workspace : Option String
  user : String
  team : Option String
  createdAt : Nat
deriving Repr, DecidableEq

/-- A team document: Modelled from the spec: `id` plus a `members` set of
user identifiers. -/
structure Team where
  id : String
  members : List String
deriving Repr, DecidableEq

/-- A user document: Modelled from the spec: only `username` is consumed
(by the `populate` join in the team listing). -/
structure User where
  id : String
  username : String
deriving Repr, DecidableEq

/-- The persistence store: the three collections, an id counter and a
logical clock for `createdAt`. -/
structure Store where
  tasks : List Task
  teams : List Team
  users : List User
  nextId : Nat
  now : Nat
deriving Repr, DecidableEq

/-- A parsed JSON request body. Every handler destructures a subset of these
keys; `none` is an absent key. -/
structure ReqBody where
  title : Option String
  description : Option String
  dueDate : Option String
  priority : Option Int
  completed : Option Bool
  workspace : Option String
  team : Option String
deriving Repr, DecidableEq

/-- The body with no keys at all. -/
def ReqBody.empty : ReqBody := ⟨none, none, none, none, none, none, none⟩

/-- Response payloads: an error/confirmation message object, a single task,
a task list, or a task list with the `user` reference expanded to the
username (the `populate('user', 'username')` join). -/
inductive RespBody where
  | msg : String → RespBody
  | task : Task → RespBody
  | tasks : List Task → RespBody
  | popTasks : List (Task × Option String) → RespBody
deriving Repr, DecidableEq

/-- An HTTP response: status code plus JSON payload. -/
structure Resp where
  status : Nat
  body : RespBody
deriving Repr, DecidableEq

/-- `Task.findById id`: first task whose `_id` matches. -/
def findTask (s : Store) (taskId : String) : Option Task :=
  s.tasks.find? (fun t => t.id = taskId)

/-- `Team.findById id`: first team whose `_id` matches. -/
def findTeam (s : Store) (teamId : String) : Option Team :=
  s.teams.find? (fun tm => tm.id = teamId)

/-- `Task.find({user: uid})`: the user's tasks in natural storage
(insertion) order. -/
def userTasks (uid : String) (s : Store) : List Task :=
  s.tasks.filter (fun t => t.user = uid)

/-- Sort key for `.sort({priority: -1})`: a missing `priority` sorts below
every present value. -/
def pkey (t : Task) : WithBot Int :=
  match t.priority with
  | none => ⊥
  | some p => (p : WithBot Int)

/-- Descending-priority order: `a` comes no later than `b`. -/
def prioGe (a b : Task) : Prop := pkey b ≤ pkey a

instance : DecidableRel prioGe :=
  fun a b => (inferInstance : Decidable (pkey b ≤ pkey a))

instance : IsTotal Task prioGe :=
  ⟨fun a b => le_total (pkey b) (pkey a)⟩

instance : IsTrans Task prioGe :=
  ⟨fun _ _ _ hab hbc => le_trans hbc hab⟩

/-- Descending-`createdAt` order (`.sort({createdAt: -1})`, newest first). -/
def dateGe (a b : Task) : Prop := b.createdAt ≤ a.createdAt

instance : DecidableRel dateGe :=
  fun a b => (inferInstance : Decidable (b.createdAt ≤ a.createdAt))

instance : IsTotal Task dateGe :=
  ⟨fun a b => Nat.le_total b.createdAt a.createdAt⟩

instance : IsTrans Task dateGe :=
  ⟨fun _ _ _ hab hbc => le_trans hbc hab⟩

/-- GET `/` (lines 11-29): list the acting user's tasks, ordered by the
`sortBy` query parameter. The store is read-only here. -/
def listPersonalTasks (uid : String) (sortBy : Option String) (s : Store) :
    Resp × Store :=
  let tasks :=
    if sortBy = some "priority" then
      List.insertionSort prioGe (userTasks uid s)
    else if sortBy = some "dateAdded" then
      List.insertionSort dateGe (userTasks uid s)
    else
      userTasks uid s
  (⟨200, .tasks tasks⟩, s)

/-- JS truthiness of the destructured `team` body value at `if (!team)`
(line 50): an absent key (`undefined`) and the empty string are both falsy. -/
def teamFalsy : Option String → Bool
  | none => true
  | some t => t = ""

/-- `new Task({...}).save()`: the store assigns a fresh id and `createdAt`;
`completed` takes its schema default `false`. -/
def saveNewTask (s : Store) (title description dueDate : Option String)
    (priority : Option Int) (user : String) (team workspace : Option String) :
    Task × Store :=
  let t : Task :=
    { id := toString s.nextId
      title := title
      description := description
      dueDate := dueDate
      priority := priority
      completed := some false
      workspace := workspace
      user := user
      team := team
      createdAt := s.now }
  (t, { s with tasks := s.tasks ++ [t], nextId := s.nextId + 1, now := s.now + 1 })

/-- POST `/` (lines 34-72): create a task in the `personal` or `team`
workspace; 400 on a falsy `team` in the team branch and on any other
`workspace` value. No Team Directory lookup happens on this path. -/
def createTask (uid : String) (b : ReqBody) (s : Store) : Resp × Store :=
  if b.workspace = some "personal" then
    let (t, s2) := saveNewTask s b.title b.description b.dueDate b.priority uid none b.workspace
    (⟨200, .task t⟩, s2)
  else if b.workspace = some "team" then
    if teamFalsy b.team then
      (⟨400, .msg "Team ID is required for team workspace"⟩, s)
    else
      let (t, s2) := saveNewTask s b.title b.description b.dueDate b.priority uid b.team b.workspace
      (⟨200, .task t⟩, s2)
  else
    (⟨400, .msg "Invalid workspace"⟩, s)

/-- The merged document built at PUT `/:id` lines 76-77 and 90: the object
literal `taskData = {title, description, dueDate, priority, completed}`
always contains all five keys (destructuring an absent body key yields
`undefined`), and `Object.assign(task, taskData)` copies every one of them
onto the document, `undefined` values included — which unsets the path on
save. Hence all five fields are overwritten with the body values. -/
def mergeTask (t : Task) (b : ReqBody) : Task :=
  { t with
    title := b.title
    description := b.description
    dueDate := b.dueDate
    priority := b.priority
    completed := b.completed }

/-- `task.save()` after mutating a found document: write it back over the
document with the same `_id` (unique in Mongo). -/
def replaceTask (s : Store) (taskId : String) (m : Task) : Store :=
  { s with tasks := s.tasks.map (fun t => if t.id = taskId then m else t) }

/-- PUT `/:id` (lines 75-98): 404 if the task is missing, 401 if the stored
`user` differs from the acting user, otherwise assign the five body fields
and save. -/
def updateTask (uid taskId : String) (b : ReqBody) (s : Store) : Resp × Store :=
  match findTask s taskId with
  | none => (⟨404, .msg "Task not found"⟩, s)
  | some task =>
    if task.user ≠ uid then
      (⟨401, .msg "Not authorized"⟩, s)
    else
      let m := mergeTask task b
      (⟨200, .task m⟩, replaceTask s taskId m)

/-- DELETE `/:id` (lines 105-125): 404 if missing, 401 if not the owner,
otherwise `deleteOne()` removes the document with that `_id`. -/
def deleteTask (uid taskId : String) (s : Store) : Resp × Store :=
  match findTask s taskId with
  | none => (⟨404, .msg "Task not found"⟩, s)
  | some task =>
    if task.user ≠ uid then
      (⟨401, .msg "Not authorized"⟩, s)
    else
      (⟨200, .msg "Task removed"⟩,
        { s with tasks := s.tasks.filter (fun t => t.id ≠ taskId) })

/-- POST `/:teamId` (lines 130-161): 404 if the team is missing, 401 if the
acting user is not in `team.members`, otherwise create the task with
`team := teamId` and no `workspace` field. -/
def createTeamTask (uid teamId : String) (b : ReqBody) (s : Store) :
    Resp × Store :=
  match findTeam s teamId with
  | none => (⟨404, .msg "Team not found"⟩, s)
  | some team =>
    if ¬ team.members.contains uid then
      (⟨401, .msg "Not authorized to create tasks within this team"⟩, s)
    else
      let (t, s2) := saveNewTask s b.title b.description b.dueDate b.priority uid (some teamId) none
      (⟨200, .task t⟩, s2)

/-- The `populate('user', 'username')` join: look the owner up in the user
collection and expose the username, if any. -/
def lookupUsername (users : List User) (uid : String) : Option String :=
  (users.find? (fun u => u.id = uid)).map (fun u => u.username)

/-- GET `/:teamId` (lines 166-187): 404 if the team is missing, 401 if not a
member, otherwise `Task.find({team: teamId})` with the username join. -/
def listTeamTasks (uid teamId : String) (s : Store) : Resp × Store :=
  match findTeam s teamId with
  | none => (⟨404, .msg "Team not found"⟩, s)
  | some team =>
    if ¬ team.members.contains uid then
      (⟨401, .msg "Not authorized to view tasks within this team"⟩, s)
    else
      let tasks := (s.tasks.filter (fun t => t.team = some teamId)).map
        (fun t => (t, lookupUsername s.users t.user))
      (⟨200, .popTasks tasks⟩, s)

/-- PUT `/:id/status` (lines 213-233): `findByIdAndUpdate(taskId,
{completed}, {new: true})`. The acting user is never consulted. Modelled
from the spec: the update delegates to the ODM, which drops an `undefined`
value from the update object, so an absent `completed` key leaves the field
unchanged; `{new: true}` returns the post-update document. -/
def updateTaskStatus (_uid taskId : String) (completed : Option Bool)
    (s : Store) : Resp × Store :=
  match findTask s taskId with
  | none => (⟨404, .msg "Task not found"⟩, s)
  | some t =>
    let m := match completed with
      | none => t
      | some c => { t with completed := some c }
    (⟨200, .task m⟩, replaceTask s taskId m)

/-- GET `/` registered a second time (lines 192-210); its body is
line-for-line the body of the first registration. -/
def listPersonalTasksDup (uid : String) (sortBy : Option String) (s : Store) :
    Resp × Store :=
  let tasks :=
    if sortBy = some "priority" then
      List.insertionSort prioGe (userTasks uid s)
    else if sortBy = some "dateAdded" then
      List.insertionSort dateGe (userTasks uid s)
    else
      userTasks uid s
  (⟨200, .tasks tasks⟩, s)

/-- HTTP methods used by the router. -/
inductive Method where
  | get | post | put | del
deriving Repr, DecidableEq

/-- Express path patterns registered on this router (relative to the
`/api/tasks` mount): `'/'`, `'/:param'`, `'/:param/status'`. -/
inductive RPat where
  | root | oneSeg | segStatus
deriving Repr, DecidableEq

/-- Path matching: a pattern either captures its parameter segment or fails.
`'/'` matches only the empty remainder; `'/:p'` exactly one segment;
`'/:p/status'` exactly two segments with the literal second segment. -/
def matchPat : RPat → List String → Option String
  | .root, [] => some ""
  | .oneSeg, [p] => some p
  | .segStatus, [p, seg] => if seg = "status" then some p else none
  | _, _ => none

/-- Tags for the eight registered handlers, in source order. -/
inductive HTag where
  | listPersonal | create | update | remove | createTeam | listTeam
  | listPersonalDup | status
deriving Repr, DecidableEq

/-- An inbound request after the Auth Gate: method, remaining path segments,
the authenticated user's id, the `sortBy` query parameter, and the parsed
body. -/
structure Req where
  method : Method
  path : List String
  uid : String
  sortBy : Option String
  body : ReqBody
deriving Repr, DecidableEq

/-- Run one handler on a request, with `p` the captured path parameter. -/
def runRoute : HTag → Req → String → Store → Resp × Store
  | .listPersonal, r, _, s => listPersonalTasks r.uid r.sortBy s
  | .create, r, _, s => createTask r.uid r.body s
  | .update, r, p, s => updateTask r.uid p r.body s
  | .remove, r, p, s => deleteTask r.uid p s
  | .createTeam, r, p, s => createTeamTask r.uid p r.body s
  | .listTeam, r, p, s => listTeamTasks r.uid p s
  | .listPersonalDup, r, _, s => listPersonalTasksDup r.uid r.sortBy s
  | .status, r, p, s => updateTaskStatus r.uid p r.body.completed s

/-- The router's registration list, in source order (lines 11, 34, 75, 105,
130, 166, 192, 213). -/
def routes : List (Method × RPat × HTag) :=
  [(.get, .root, .listPersonal),
   (.post, .root, .create),
   (.put, .oneSeg, .update),
   (.del, .oneSeg, .remove),
   (.post, .oneSeg, .createTeam),
   (.get, .oneSeg, .listTeam),
   (.get, .root, .listPersonalDup),
   (.put, .segStatus, .status)]

/-- The same registration list with the duplicate GET `/` removed. -/
def routesDedup : List (Method × RPat × HTag) :=
  [(.get, .root, .listPersonal),
   (.post, .root, .create),
   (.put, .oneSeg, .update),
   (.del, .oneSeg, .remove),
   (.post, .oneSeg, .createTeam),
   (.get, .oneSeg, .listTeam),
   (.put, .segStatus, .status)]

/-- Express dispatch: scan the registrations in order and run the first one
whose method and path pattern match (no handler calls `next()`); `none`
models the framework's fallthrough when nothing matches. -/
def dispatch : List (Method × RPat × HTag) → Req → Store → Option (Resp × Store)
  | [], _, _ => none
  | (m, pat, h) :: rest, r, s =>
    if r.method = m then
      match matchPat pat r.path with
      | some p => some (runRoute h r p s)
      | none => dispatch rest r s
    else
      dispatch rest r s

/-! Concrete fixtures used by witnesses and counterexamples. -/

/-- A personal task of user `alice` with priority 1, created at tick 10. -/
def tA : Task :=
  { id := "1", title := some "alpha", description := some "da", dueDate := none
    priority := some 1, completed := some false, workspace := some "personal"
    user := "alice", team := none, createdAt := 10 }

/-- A personal task of user `alice` with priority 5, created at tick 11. -/
def tB : Task :=
  { id := "2", title := some "beta", description := none, dueDate := none
    priority := some 5, completed := some false, workspace := some "personal"
    user := "alice", team := none, createdAt := 11 }

/-- A personal task of user `alice` with priority 3, created at tick 12. -/
def tC : Task :=
  { id := "3", title := some "gamma", description := none, dueDate := none
    priority := some 3, completed := some false, workspace := some "personal"
    user := "alice", team := none, createdAt := 12 }

/-- A task of user `bob` inside team `T1`, created at tick 13. -/
def tD : Task :=
  { id := "4", title := some "delta", description := none, dueDate := none
    priority := some 2, completed := some true, workspace := none
    user := "bob", team := some "T1", createdAt := 13 }

/-- A team whose members are `alice` and `bob`. -/
def teamT : Team := { id := "T1", members := ["alice", "bob"] }

/-- Example store: Alice's three personal tasks (priorities 1, 5, 3 in
insertion order), one of Bob's team tasks, one team, one user record. -/
def sEx : Store :=
  { tasks := [tA, tB, tC, tD]
    teams := [teamT]
    users := [{ id := "alice", username := "Alice" }]
    nextId := 5
    now := 20 }

/-- Body creating a personal-workspace task. -/
def bPersonal : ReqBody :=
  { ReqBody.empty with title := some "mine", workspace := some "personal" }

/-- Body creating a team-workspace task with a non-empty team id that does
not exist in `sEx`. -/
def bTeamOk : ReqBody :=
  { ReqBody.empty with title := some "ours", workspace := some "team", team := some "T9" }

/-- Body with `workspace: "team"` and no `team` key. -/
def bTeamNoId : ReqBody :=
  { ReqBody.empty with title := some "ours", workspace := some "team" }

/-- Body with `workspace: "team"` and `team: ""` — the key is present but
its value is falsy in JS. -/
def bTeamEmptyId : ReqBody :=
  { ReqBody.empty with title := some "ours", workspace := some "team", team := some "" }

/-- Update body that only sets `completed` — every other key is absent. -/
def bOnlyCompleted : ReqBody := { ReqBody.empty with completed := some true }

/-! Helper lemmas. -/

/-- The task returned by `findById` carries the looked-up id. -/
theorem find?_id_eq {l : List Task} {tid : String} {t : Task}
    (hf : l.find? (fun x => x.id = tid) = some t) : t.id = tid := by
  have h := List.find?_some hf
  simpa using h

/-- Writing a document `m` with `m.id = tid` back over the documents with
id `tid` makes it the one `findById tid` returns, provided some document
with that id was already present. -/
theorem find?_replace {l : List Task} {tid : String} {m t : Task}
    (hm : m.id = tid) (hf : l.find? (fun x => x.id = tid) = some t) :
    (l.map (fun x => if x.id = tid then m else x)).find? (fun x => x.id = tid) =
      some m := by
  induction l with
  | nil => simp at hf
  | cons x xs ih =>
    by_cases hx : x.id = tid
    · simp [hx, hm]
    · rw [List.find?_cons_of_neg] at hf
      · simpa [hx] using ih hf
      · simp [hx]

/-- Filtering out the documents with id `tid` leaves nothing for
`findById tid` to return. -/
theorem find?_filter_ne (l : List Task) (tid : String) :
    (l.filter (fun x => x.id ≠ tid)).find? (fun x => x.id = tid) = none := by
  rw [List.find?_eq_none]
  intro a ha
  simp only [List.mem_filter, decide_eq_true_eq] at ha
  simp [ha.2]

/-- Replacing by an id that occurs nowhere in the list changes nothing. -/
theorem map_replace_of_not_mem {l : List Task} {tid : String} {m : Task}
    (h : ∀ y ∈ l, y.id ≠ tid) :
    l.map (fun y => if y.id = tid then m else y) = l := by
  induction l with
  | nil => rfl
  | cons x xs ih =>
    have hx : x.id ≠ tid := h x (List.mem_cons_self x xs)
    have hxs := ih (fun y hy => h y (List.mem_cons_of_mem x hy))
    simp [hx, hxs]

/-- In a store with no duplicate ids, writing back a document that keeps
the id and `createdAt` of the document it replaces preserves the
`(id, createdAt)` column of the whole collection. -/
theorem map_replace_pairs {l : List Task} {tid : String} {m t : Task}
    (hnd : (l.map (fun x => x.id)).Nodup)
    (hf : l.find? (fun x => x.id = tid) = some t)
    (hid : m.id = t.id) (hca : m.createdAt = t.createdAt) :
    (l.map (fun x => if x.id = tid then m else x)).map
        (fun x => (x.id, x.createdAt)) =
      l.map (fun x => (x.id, x.createdAt)) := by
  induction l with
  | nil => simp at hf
  | cons x xs ih =>
    rw [List.map_cons, List.nodup_cons] at hnd
    by_cases hx : x.id = tid
    · rw [List.find?_cons_of_pos xs (by simp [hx])] at hf
      have hxt : x = t := Option.some.inj hf
      subst hxt
      have hrest : xs.map (fun y => if y.id = tid then m else y) = xs := by
        apply map_replace_of_not_mem
        intro y hy hcontra
        apply hnd.1
        rw [hx, ← hcontra]
        exact List.mem_map_of_mem (fun z => z.id) hy
      simp [hx, hid, hca, hrest]
    · rw [List.find?_cons_of_neg xs (by simp [hx])] at hf
      simp only [List.map_cons, if_neg hx]
      rw [ih hnd.2 hf]

/-! Claim theorems. -/

/-- C1: for every stored task and acting user, PUT `/api/tasks/:id` and
DELETE `/api/tasks/:id` answer 401 "Not authorized" and leave the store
unchanged whenever the stored task's `user` differs from the acting user's
id; when they agree, the update answers 200 with a merged record that is
persisted under the task's id, and the delete answers 200 and removes the
record from the store. -/
theorem c1_update_delete_ownership (uid taskId : String) (b : ReqBody)
    (s : Store) (t : Task) (hf : findTask s taskId = some t) :
    (t.user ≠ uid →
      updateTask uid taskId b s = (⟨401, .msg "Not authorized"⟩, s) ∧
      deleteTask uid taskId s = (⟨401, .msg "Not authorized"⟩, s)) ∧
    (t.user = uid →
      (∃ m, (updateTask uid taskId b s).1 = ⟨200, .task m⟩ ∧
        findTask (updateTask uid taskId b s).2 taskId = some m) ∧
      (deleteTask uid taskId s).1 = ⟨200, .msg "Task removed"⟩ ∧
      findTask (deleteTask uid taskId s).2 taskId = none) := by
  have hf2 : s.tasks.find? (fun x => x.id = taskId) = some t := hf
  have hid : t.id = taskId := find?_id_eq hf2
  constructor
  · intro hne
    constructor
    · simp [updateTask, hf, hne]
    · simp [deleteTask, hf, hne]
  · intro heq
    refine ⟨⟨mergeTask t b, ?_, ?_⟩, ?_, ?_⟩
    · simp [updateTask, hf, heq]
    · have hm : (mergeTask t b).id = taskId := by simp [mergeTask, hid]
      simp only [updateTask, hf, heq]
      simp [replaceTask, findTask, find?_replace hm hf2]
    · simp [deleteTask, hf, heq]
    · simp only [deleteTask, hf, heq]
      simp [findTask, find?_filter_ne]

/-- C1 witness: in the example store, task `"1"` belongs to `alice`; acting
as `bob` both mutations are refused with 401 and the store is untouched,
while acting as `alice` the delete succeeds and removes the record. -/
theorem c1_update_delete_ownership_witness :
    updateTask "bob" "1" bOnlyCompleted sEx = (⟨401, .msg "Not authorized"⟩, sEx) ∧
    deleteTask "bob" "1" sEx = (⟨401, .msg "Not authorized"⟩, sEx) ∧
    (deleteTask "alice" "1" sEx).1 = ⟨200, .msg "Task removed"⟩ ∧
    findTask (deleteTask "alice" "1" sEx).2 "1" = none := by
  have hb := c1_update_delete_ownership "bob" "1" bOnlyCompleted sEx tA (by decide)
  have ha := c1_update_delete_ownership "alice" "1" bOnlyCompleted sEx tA (by decide)
  have hb2 := hb.1 (by decide)
  have ha2 := ha.2 (by decide)
  exact ⟨hb2.1, hb2.2, ha2.2.1, ha2.2.2⟩

/-- C2: PUT `/api/tasks/:id/status` never consults the caller's identity:
its whole outcome (response and store) is the same for any two acting
users; a missing task id answers 404, and an existing one answers 200 with
the post-update record, which is persisted under the task's id. -/
theorem c2_status_ignores_caller (u1 u2 taskId : String) (c : Option Bool)
    (s : Store) :
    updateTaskStatus u1 taskId c s = updateTaskStatus u2 taskId c s ∧
    (findTask s taskId = none →
      updateTaskStatus u1 taskId c s = (⟨404, .msg "Task not found"⟩, s)) ∧
    (∀ t, findTask s taskId = some t →
      ∃ m, updateTaskStatus u1 taskId c s = (⟨200, .task m⟩, replaceTask s taskId m) ∧
        findTask (replaceTask s taskId m) taskId = some m ∧
        ∀ cv, c = some cv → m.completed = some cv) := by
  refine ⟨rfl, ?_, ?_⟩
  · intro h
    simp [updateTaskStatus, h]
  · intro t hf
    have hf2 : s.tasks.find? (fun x => x.id = taskId) = some t := hf
    have hid : t.id = taskId := find?_id_eq hf2
    cases c with
    | none =>
      refine ⟨t, ?_, ?_, ?_⟩
      · simp [updateTaskStatus, hf]
      · simpa [replaceTask, findTask] using find?_replace hid hf2
      · intro cv hcv
        cases hcv
    | some cv =>
      refine ⟨{ t with completed := some cv }, ?_, ?_, ?_⟩
      · simp [updateTaskStatus, hf]
      · simpa [replaceTask, findTask] using find?_replace (by simpa using hid) hf2
      · intro cv2 hcv
        cases hcv
        rfl

/-- C2 witness: in the example store, flipping task `"1"` (owned by
`alice`) as `bob` gives the very same response and store as doing it as
`alice`, and a missing id answers 404. -/
theorem c2_status_ignores_caller_witness :
    updateTaskStatus "bob" "1" (some true) sEx =
      updateTaskStatus "alice" "1" (some true) sEx ∧
    updateTaskStatus "bob" "99" (some true) sEx =
      (⟨404, .msg "Task not found"⟩, sEx) ∧
    ∃ m, updateTaskStatus "bob" "1" (some true) sEx =
      (⟨200, .task m⟩, replaceTask sEx "1" m) ∧ m.completed = some true := by
  have h1 := c2_status_ignores_caller "bob" "alice" "1" (some true) sEx
  have h2 := c2_status_ignores_caller "bob" "alice" "99" (some true) sEx
  obtain ⟨m, hm1, _, hm3⟩ := h1.2.2 tA (by decide)
  exact ⟨h1.1, h2.2.1 (by decide), m, hm1, hm3 true rfl⟩

/-- C3: the generic POST `/api/tasks` with `workspace: "team"` and a
non-empty `team` value persists the task and returns it without any Team
Directory lookup: the outcome is the same for every content of the team
collection (in particular when the referenced team is absent or the caller
is not a member). -/
theorem c3_create_team_skips_directory (uid : String) (b : ReqBody)
    (s : Store) (tid : String) (hw : b.workspace = some "team")
    (ht : b.team = some tid) (hne : tid ≠ "") :
    (∃ t, createTask uid b s =
      (⟨200, .task t⟩,
        { s with tasks := s.tasks ++ [t], nextId := s.nextId + 1, now := s.now + 1 })) ∧
    (∀ teams2 : List Team,
      (createTask uid b { s with teams := teams2 }).1 = (createTask uid b s).1 ∧
      ((createTask uid b { s with teams := teams2 }).2).tasks =
        ((createTask uid b s).2).tasks) := by
  have hfalsy : teamFalsy b.team = false := by
    rw [ht]
    simp [teamFalsy, hne]
  constructor
  · refine ⟨(saveNewTask s b.title b.description b.dueDate b.priority uid b.team b.workspace).1, ?_⟩
    simp [createTask, hw, hfalsy, saveNewTask]
  · intro teams2
    constructor <;> simp [createTask, hw, hfalsy, saveNewTask]

/-- C3 witness: team `"T9"` does not exist in the example store, yet the
generic create with `workspace: "team"`, `team: "T9"` succeeds and appends
the task. -/
theorem c3_create_team_skips_directory_witness :
    findTeam sEx "T9" = none ∧
    ∃ t, createTask "alice" bTeamOk sEx =
      (⟨200, .task t⟩,
        { sEx with tasks := sEx.tasks ++ [t], nextId := sEx.nextId + 1, now := sEx.now + 1 }) := by
  have h := c3_create_team_skips_directory "alice" bTeamOk sEx "T9" rfl rfl (by decide)
  exact ⟨by decide, h.1⟩

/-- C4: both team-scoped routes (POST and GET `/api/tasks/:teamId`) answer
404 "Team not found" when no team has that id and 401 when the acting user
is not among the team's members; in both failure cases the store is
unchanged and the payload is a message, never task data. -/
theorem c4_team_routes_auth (uid teamId : String) (b : ReqBody) (s : Store) :
    (findTeam s teamId = none →
      createTeamTask uid teamId b s = (⟨404, .msg "Team not found"⟩, s) ∧
      listTeamTasks uid teamId s = (⟨404, .msg "Team not found"⟩, s)) ∧
    (∀ team, findTeam s teamId = some team →
      team.members.contains uid = false →
      createTeamTask uid teamId b s =
        (⟨401, .msg "Not authorized to create tasks within this team"⟩, s) ∧
      listTeamTasks uid teamId s =
        (⟨401, .msg "Not authorized to view tasks within this team"⟩, s)) := by
  constructor
  · intro h
    constructor <;> simp [createTeamTask, listTeamTasks, h]
  · intro tm hf hmem
    have hmem2 : uid ∉ tm.members := by simpa using hmem
    constructor <;> simp [createTeamTask, listTeamTasks, hf, hmem2]

/-- C4 witness: in the example store `carol` is no member of team `"T1"`,
so both team routes refuse her with 401, and both answer 404 for the
missing team `"T9"`. -/
theorem c4_team_routes_auth_witness :
    createTeamTask "carol" "T1" bPersonal sEx =
      (⟨401, .msg "Not authorized to create tasks within this team"⟩, sEx) ∧
    listTeamTasks "carol" "T1" sEx =
      (⟨401, .msg "Not authorized to view tasks within this team"⟩, sEx) ∧
    createTeamTask "alice" "T9" bPersonal sEx = (⟨404, .msg "Team not found"⟩, sEx) ∧
    listTeamTasks "alice" "T9" sEx = (⟨404, .msg "Team not found"⟩, sEx) := by
  have h1 := (c4_team_routes_auth "carol" "T1" bPersonal sEx).2 teamT (by decide) (by decide)
  have h2 := (c4_team_routes_auth "alice" "T9" bPersonal sEx).1 (by decide)
  exact ⟨h1.1, h1.2, h2.1, h2.2⟩

/-- JS falsiness of the `team` body value, spelled out. -/
theorem teamFalsy_iff (t : Option String) :
    teamFalsy t = true ↔ t = none ∨ t = some "" := by
  cases t <;> simp [teamFalsy]

/-- C5 counterexample: with `workspace: "team"` and `team: ""` the `team`
key is present (not absent), yet POST `/api/tasks` answers 400 "Team ID is
required for team workspace" and persists nothing — refuting that the 400
happens exactly when the key is absent and that every other request
persists a task. -/
theorem c5_create_validation_cx :
    bTeamEmptyId.workspace = some "team" ∧ bTeamEmptyId.team ≠ none ∧
    createTask "alice" bTeamEmptyId sEx =
      (⟨400, .msg "Team ID is required for team workspace"⟩, sEx) := by
  refine ⟨rfl, by decide, by decide⟩

/-- C5 (amended): POST `/api/tasks` answers 400 "Team ID is required for
team workspace" exactly when `workspace == "team"` and the `team` value is
absent or the empty string (JS-falsy), 400 "Invalid workspace" exactly when
`workspace` is neither `"personal"` nor `"team"`, and in every other case
it appends a new task to the store and returns it. -/
theorem c5_create_validation (uid : String) (b : ReqBody) (s : Store) :
    ((createTask uid b s).1.status = 400 ↔
      (b.workspace = some "team" ∧ (b.team = none ∨ b.team = some "")) ∨
      (b.workspace ≠ some "personal" ∧ b.workspace ≠ some "team")) ∧
    (b.workspace = some "team" → b.team = none ∨ b.team = some "" →
      createTask uid b s = (⟨400, .msg "Team ID is required for team workspace"⟩, s)) ∧
    (b.workspace ≠ some "personal" → b.workspace ≠ some "team" →
      createTask uid b s = (⟨400, .msg "Invalid workspace"⟩, s)) ∧
    (b.workspace = some "personal" ∨
      (b.workspace = some "team" ∧ ¬ (b.team = none ∨ b.team = some "")) →
      ∃ t, createTask uid b s =
        (⟨200, .task t⟩,
          { s with tasks := s.tasks ++ [t], nextId := s.nextId + 1, now := s.now + 1 })) := by
  by_cases hp : b.workspace = some "personal"
  · refine ⟨?_, ?_, ?_, ?_⟩
    · simp [createTask, hp, saveNewTask]
    · intro h1
      rw [hp] at h1
      simp at h1
    · intro h1 _
      exact absurd hp h1
    · intro _
      refine ⟨(saveNewTask s b.title b.description b.dueDate b.priority uid none b.workspace).1, ?_⟩
      simp [createTask, hp, saveNewTask]
  · by_cases htm : b.workspace = some "team"
    · by_cases hfal : teamFalsy b.team = true
      · have hor := (teamFalsy_iff b.team).mp hfal
        refine ⟨?_, ?_, ?_, ?_⟩
        · simp [createTask, hp, htm, hfal, hor]
        · intro _ _
          simp [createTask, hp, htm, hfal]
        · intro _ h2
          exact absurd htm h2
        · intro hother
          rcases hother with h | h
          · exact absurd h hp
          · exact absurd hor h.2
      · have hor : ¬ (b.team = none ∨ b.team = some "") := by
          rw [← teamFalsy_iff]
          simp [hfal]
        have hfal2 : teamFalsy b.team = false := by simp [hfal]
        refine ⟨?_, ?_, ?_, ?_⟩
        · simp [createTask, hp, htm, hfal2, hor, saveNewTask]
        · intro _ h2
          exact absurd h2 hor
        · intro _ h2
          exact absurd htm h2
        · intro _
          refine ⟨(saveNewTask s b.title b.description b.dueDate b.priority uid b.team b.workspace).1, ?_⟩
          simp [createTask, hp, htm, hfal2, saveNewTask]
    · refine ⟨?_, ?_, ?_, ?_⟩
      · simp [createTask, hp, htm]
      · intro h1
        exact absurd h1 htm
      · intro _ _
        simp [createTask, hp, htm]
      · intro hother
        rcases hother with h | h
        · exact absurd h hp
        · exact absurd h.1 htm

/-- C5 witness: the three branches at concrete bodies — a missing `team`
key gives the team 400, a bogus workspace gives "Invalid workspace", and a
personal-workspace body appends a task. -/
theorem c5_create_validation_witness :
    createTask "alice" bTeamNoId sEx =
      (⟨400, .msg "Team ID is required for team workspace"⟩, sEx) ∧
    createTask "alice" ReqBody.empty sEx = (⟨400, .msg "Invalid workspace"⟩, sEx) ∧
    ∃ t, createTask "alice" bPersonal sEx =
      (⟨200, .task t⟩,
        { sEx with tasks := sEx.tasks ++ [t], nextId := sEx.nextId + 1, now := sEx.now + 1 }) := by
  have h1 := (c5_create_validation "alice" bTeamNoId sEx).2.1 rfl (by decide)
  have h2 := (c5_create_validation "alice" ReqBody.empty sEx).2.2.1 (by decide) (by decide)
  have h3 := (c5_create_validation "alice" bPersonal sEx).2.2.2 (by decide)
  exact ⟨h1, h2, h3⟩

/-- C6 counterexample: task `"1"` is stored with title `"alpha"`; an update
whose body carries only `completed` (every other key absent) comes back —
and is persisted — with `title = none`: the absent key was overwritten, not
left unchanged. -/
theorem c6_update_merge_cx :
    tA.title = some "alpha" ∧ bOnlyCompleted.title = none ∧
    (updateTask "alice" "1" bOnlyCompleted sEx).1 =
      ⟨200, .task (mergeTask tA bOnlyCompleted)⟩ ∧
    (mergeTask tA bOnlyCompleted).title = none ∧
    findTask (updateTask "alice" "1" bOnlyCompleted sEx).2 "1" =
      some (mergeTask tA bOnlyCompleted) := by
  refine ⟨rfl, rfl, by decide, rfl, by decide⟩

/-- C6 (amended): on an owned task, PUT `/api/tasks/:id` overwrites all
five of title, description, dueDate, priority, completed with the request
body's values — a field present in the body is set to the supplied value,
and a field absent from the body is unset rather than kept — while id,
user, team, workspace and createdAt are unchanged; the result is returned
and persisted. -/
theorem c6_update_overwrites_all_fields (uid taskId : String) (b : ReqBody)
    (s : Store) (t : Task) (hf : findTask s taskId = some t)
    (hu : t.user = uid) :
    ∃ m, (updateTask uid taskId b s).1 = ⟨200, .task m⟩ ∧
      findTask (updateTask uid taskId b s).2 taskId = some m ∧
      m.title = b.title ∧ m.description = b.description ∧
      m.dueDate = b.dueDate ∧ m.priority = b.priority ∧
      m.completed = b.completed ∧ m.id = t.id ∧ m.user = t.user ∧
      m.team = t.team ∧ m.workspace = t.workspace ∧
      m.createdAt = t.createdAt := by
  have hf2 : s.tasks.find? (fun x => x.id = taskId) = some t := hf
  have hid : t.id = taskId := find?_id_eq hf2
  have hm : (mergeTask t b).id = taskId := by simp [mergeTask, hid]
  refine ⟨mergeTask t b, ?_, ?_, ?_, ?_, ?_, ?_, ?_, ?_, ?_, ?_, ?_, ?_⟩
  · simp [updateTask, hf, hu]
  · simp only [updateTask, hf, hu]
    simp [replaceTask, findTask, find?_replace hm hf2]
  all_goals simp [mergeTask]

/-- C6 witness: updating task `"1"` (owned by `alice`) with a body that
only sets `completed` yields a 200 whose record has `completed := true`
but a cleared title, with `createdAt` untouched. -/
theorem c6_update_overwrites_all_fields_witness :
    ∃ m, (updateTask "alice" "1" bOnlyCompleted sEx).1 = ⟨200, .task m⟩ ∧
      m.title = none ∧ m.completed = some true ∧ m.createdAt = tA.createdAt := by
  obtain ⟨m, h1, _, h3, _, _, _, h7, _, _, _, _, h12⟩ :=
    c6_update_overwrites_all_fields "alice" "1" bOnlyCompleted sEx tA
      (by decide) (by decide)
  exact ⟨m, h1, h3.trans rfl, h7.trans rfl, h12⟩

/-- C7: GET `/api/tasks` returns, for `sortBy=priority`, a permutation of
the caller's tasks sorted by priority descending; for `sortBy=dateAdded`, a
permutation sorted by `createdAt` descending (newest first); and for any
other or absent `sortBy`, exactly the caller's tasks in storage order.
Concretely, Alice's tasks with priorities [1,5,3] come back as [5,3,1]. -/
theorem c7_list_sorting (uid : String) (s : Store) :
    (∃ ts, listPersonalTasks uid (some "priority") s = (⟨200, .tasks ts⟩, s) ∧
      List.Sorted prioGe ts ∧ ts.Perm (userTasks uid s)) ∧
    (∃ ts, listPersonalTasks uid (some "dateAdded") s = (⟨200, .tasks ts⟩, s) ∧
      List.Sorted dateGe ts ∧ ts.Perm (userTasks uid s)) ∧
    (∀ q, q ≠ some "priority" → q ≠ some "dateAdded" →
      listPersonalTasks uid q s = (⟨200, .tasks (userTasks uid s)⟩, s)) ∧
    (listPersonalTasks "alice" (some "priority") sEx).1 = ⟨200, .tasks [tB, tC, tA]⟩ ∧
    (listPersonalTasks "alice" (some "dateAdded") sEx).1 = ⟨200, .tasks [tC, tB, tA]⟩ := by
  refine ⟨⟨List.insertionSort prioGe (userTasks uid s), ?_, ?_, ?_⟩,
    ⟨List.insertionSort dateGe (userTasks uid s), ?_, ?_, ?_⟩, ?_, ?_, ?_⟩
  · simp [listPersonalTasks]
  · exact List.sorted_insertionSort prioGe (userTasks uid s)
  · exact List.perm_insertionSort prioGe (userTasks uid s)
  · simp [listPersonalTasks]
  · exact List.sorted_insertionSort dateGe (userTasks uid s)
  · exact List.perm_insertionSort dateGe (userTasks uid s)
  · intro q h1 h2
    simp [listPersonalTasks, h1, h2]
  · decide
  · decide

/-- C7 witness: with `sortBy` absent, Alice's tasks come back in insertion
order [priority 1, priority 5, priority 3]. -/
theorem c7_list_sorting_witness :
    listPersonalTasks "alice" none sEx = (⟨200, .tasks [tA, tB, tC]⟩, sEx) := by
  have h := (c7_list_sorting "alice" sEx).2.2.1 none (by simp) (by simp)
  rw [h]
  decide

/-- Every branch of the personal listing returns 200 with a permutation of
the caller's stored tasks and leaves the store unchanged. -/
theorem listPersonal_perm (uid : String) (q : Option String) (s : Store) :
    ∃ ts, listPersonalTasks uid q s = (⟨200, .tasks ts⟩, s) ∧
      ts.Perm (userTasks uid s) := by
  by_cases h1 : q = some "priority"
  · exact ⟨_, by simp [listPersonalTasks, h1], List.perm_insertionSort prioGe _⟩
  · by_cases h2 : q = some "dateAdded"
    · exact ⟨_, by simp [listPersonalTasks, h1, h2], List.perm_insertionSort dateGe _⟩
    · exact ⟨_, by simp [listPersonalTasks, h1, h2], List.Perm.refl _⟩

/-- C8: a task created through POST `/api/tasks` with `workspace:
"personal"` by user `uid` shows up in every subsequent personal listing by
`uid` (whatever the `sortBy`), and never in a personal listing by any other
user. -/
theorem c8_create_then_list (uid : String) (b : ReqBody) (s : Store)
    (hw : b.workspace = some "personal") :
    ∃ t s2, createTask uid b s = (⟨200, .task t⟩, s2) ∧
      (∀ q, ∃ ts, listPersonalTasks uid q s2 = (⟨200, .tasks ts⟩, s2) ∧ t ∈ ts) ∧
      (∀ v, v ≠ uid → ∀ q, ∃ ts,
        listPersonalTasks v q s2 = (⟨200, .tasks ts⟩, s2) ∧ t ∉ ts) := by
  refine ⟨(saveNewTask s b.title b.description b.dueDate b.priority uid none b.workspace).1,
    (saveNewTask s b.title b.description b.dueDate b.priority uid none b.workspace).2,
    by simp [createTask, hw], ?_, ?_⟩
  · intro q
    obtain ⟨ts, heq, hperm⟩ := listPersonal_perm uid q
      (saveNewTask s b.title b.description b.dueDate b.priority uid none b.workspace).2
    refine ⟨ts, heq, ?_⟩
    rw [hperm.mem_iff]
    simp [userTasks, saveNewTask, List.mem_filter]
  · intro v hv q
    obtain ⟨ts, heq, hperm⟩ := listPersonal_perm v q
      (saveNewTask s b.title b.description b.dueDate b.priority uid none b.workspace).2
    refine ⟨ts, heq, ?_⟩
    rw [hperm.mem_iff]
    intro hmem
    have huser := (List.mem_filter.mp hmem).2
    simp [saveNewTask] at huser
    exact hv huser.symm

/-- C8 witness: Alice's personal create lands in her own default listing
and is absent from Bob's. -/
theorem c8_create_then_list_witness :
    ∃ t s2, createTask "alice" bPersonal sEx = (⟨200, .task t⟩, s2) ∧
      (∃ ts, listPersonalTasks "alice" none s2 = (⟨200, .tasks ts⟩, s2) ∧ t ∈ ts) ∧
      (∃ ts, listPersonalTasks "bob" none s2 = (⟨200, .tasks ts⟩, s2) ∧ t ∉ ts) := by
  obtain ⟨t, s2, h1, h2, h3⟩ := c8_create_then_list "alice" bPersonal sEx rfl
  exact ⟨t, s2, h1, h2 none, h3 "bob" (by decide) none⟩

/-- C9: in a store without duplicate ids, the two mutating operations —
the PUT `/:id` field merge and the PUT `/:id/status` completed update —
preserve the `(id, createdAt)` column of the task collection: both fields
keep the values assigned at creation. -/
theorem c9_id_createdAt_immutable (uid taskId : String) (b : ReqBody)
    (c : Option Bool) (s : Store)
    (hnd : (s.tasks.map (fun t => t.id)).Nodup) :
    ((updateTask uid taskId b s).2).tasks.map (fun t => (t.id, t.createdAt)) =
      s.tasks.map (fun t => (t.id, t.createdAt)) ∧
    ((updateTaskStatus uid taskId c s).2).tasks.map (fun t => (t.id, t.createdAt)) =
      s.tasks.map (fun t => (t.id, t.createdAt)) := by
  constructor
  · cases hf : findTask s taskId with
    | none => simp [updateTask, hf]
    | some t =>
      by_cases hu : t.user = uid
      · have hstep : (updateTask uid taskId b s).2 = replaceTask s taskId (mergeTask t b) := by
          simp [updateTask, hf, hu]
        rw [hstep]
        exact map_replace_pairs hnd hf (by simp [mergeTask]) (by simp [mergeTask])
      · simp [updateTask, hf, hu]
  · cases hf : findTask s taskId with
    | none => simp [updateTaskStatus, hf]
    | some t =>
      cases c with
      | none =>
        have hstep : (updateTaskStatus uid taskId none s).2 = replaceTask s taskId t := by
          simp [updateTaskStatus, hf]
        rw [hstep]
        exact map_replace_pairs hnd hf rfl rfl
      | some cv =>
        have hstep : (updateTaskStatus uid taskId (some cv) s).2 =
            replaceTask s taskId { t with completed := some cv } := by
          simp [updateTaskStatus, hf]
        rw [hstep]
        exact map_replace_pairs hnd hf rfl rfl

/-- C9 witness: in the example store, a field merge on task `"1"` and a
status flip on task `"2"` both leave every `(id, createdAt)` pair as it
was. -/
theorem c9_id_createdAt_immutable_witness :
    ((updateTask "alice" "1" bOnlyCompleted sEx).2).tasks.map
        (fun t => (t.id, t.createdAt)) =
      sEx.tasks.map (fun t => (t.id, t.createdAt)) ∧
    ((updateTaskStatus "bob" "2" (some true) sEx).2).tasks.map
        (fun t => (t.id, t.createdAt)) =
      sEx.tasks.map (fun t => (t.id, t.createdAt)) := by
  have h1 := c9_id_createdAt_immutable "alice" "1" bOnlyCompleted (some true) sEx (by decide)
  have h2 := c9_id_createdAt_immutable "bob" "2" bOnlyCompleted (some true) sEx (by decide)
  exact ⟨h1.1, h2.2⟩

/-- C10: the router registers GET `/` twice with identical handler bodies;
since dispatch runs the first matching registration, the duplicate is dead
code: for every request and store, dispatch over the full registration list
equals dispatch over the list with the duplicate removed. -/
theorem c10_duplicate_get_unreachable (r : Req) (s : Store) :
    listPersonalTasksDup = listPersonalTasks ∧
    dispatch routes r s = dispatch routesDedup r s := by
  refine ⟨rfl, ?_⟩
  obtain ⟨m, p, u, q, b⟩ := r
  cases m <;> rcases p with _ | ⟨a, _ | ⟨c, _ | ⟨d, rest⟩⟩⟩ <;>
    simp [dispatch, routes, routesDedup, matchPat, runRoute,
      listPersonalTasksDup, listPersonalTasks]

end TaskForge
